import Mathlib

/-!
Verification of `lnaddress2invoice.py`: a shallow embedding of the
LNURL-pay resolution pipeline (`get_payurl`, `get_comment_length`,
`get_bolt11`) and of the BOLT11 diagnostic decoder (`from_words`,
`words_to_bytes`, `parse_tags`, `decode_bolt11`), together with theorems
settling the specification's claims about them.

Machine integers are modelled as `Nat`: all quantities involved
(5-bit words, byte values, millisatoshi amounts) are non-negative and
Python integers are unbounded, so no wrap-around modelling is needed.
Fallible Python code (raised exceptions) is modelled with `Except`/`Option`.
-/

namespace LnAddr

instance {ε α : Type} [DecidableEq ε] [DecidableEq α] : DecidableEq (Except ε α) := fun a b =>
  match a, b with
  | .ok x, .ok y => if h : x = y then isTrue (by rw [h]) else isFalse (by simp [h])
  | .error x, .error y => if h : x = y then isTrue (by rw [h]) else isFalse (by simp [h])
  | .ok _, .error _ => isFalse (by simp)
  | .error _, .ok _ => isFalse (by simp)

/-! ## Python built-ins used by the source -/

/-- Model of Python `s.split(sep)` for a single-character separator,
on the character list of the string.  `"".split('@') == ['']`,
`"a@@b".split('@') == ['a','','b']`. -/
def splitChar (sep : Char) : List Char → List (List Char)
  | [] => [[]]
  | c :: rest =>
    match splitChar sep rest with
    | [] => [[c]]
    | h :: t => if c = sep then [] :: h :: t else (c :: h) :: t

/-- Python string truthiness aside, `int(str)` parsing: optional
surrounding ASCII whitespace, an optional sign, then a non-empty digit
run.  Anything else raises `ValueError`, modelled as `none`. -/
def isPySpace (c : Char) : Bool :=
  c = ' ' ∨ c = '\t' ∨ c = '\n' ∨ c = '\r' ∨ c = Char.ofNat 11 ∨ c = Char.ofNat 12

def isDigitChar (c : Char) : Bool := 48 ≤ c.toNat ∧ c.toNat ≤ 57

def digitsVal (ds : List Char) : Int :=
  ds.foldl (fun a c => a * 10 + (Int.ofNat c.toNat - 48)) 0

def pyIntOfStr (s : String) : Option Int :=
  let t := ((s.toList.dropWhile isPySpace).reverse.dropWhile isPySpace).reverse
  match t with
  | '-' :: ds => if ds ≠ [] ∧ ds.all isDigitChar then some (-(digitsVal ds)) else none
  | '+' :: ds => if ds ≠ [] ∧ ds.all isDigitChar then some (digitsVal ds) else none
  | ds => if ds ≠ [] ∧ ds.all isDigitChar then some (digitsVal ds) else none

/-- JSON values as produced by `json.loads` (floats are not needed by any
claim and are not modelled). -/
inductive JVal where
  | num : Int → JVal
  | str : String → JVal
  | bool : Bool → JVal
  | null : JVal
deriving DecidableEq

/-- Python `int(v)` applied to a JSON-decoded value: identity on integers,
string parsing for strings, `1`/`0` for booleans, `TypeError` (`none`)
for `null`. -/
def pyIntOfJVal : JVal → Option Int
  | .num n => some n
  | .str s => pyIntOfStr s
  | .bool b => some (if b then 1 else 0)
  | .null => none

/-- Uppercase hexadecimal digit, used by `urllib.parse.quote_plus`. -/
def hexDigitUpper (n : Nat) : Char :=
  if n < 10 then Char.ofNat (48 + n) else Char.ofNat (55 + n)

/-- Lowercase hexadecimal digit, used by `bytes.hex()`. -/
def hexDigitLower (n : Nat) : Char :=
  if n < 10 then Char.ofNat (48 + n) else Char.ofNat (87 + n)

/-- Python `bytes.hex()`: two lowercase hex digits per byte. -/
def bytesToHex (bs : List Nat) : String :=
  String.mk ((bs.map (fun b => [hexDigitLower (b / 16), hexDigitLower (b % 16)])).flatten)

/-- UTF-8 encoding of one character (scalar value). -/
def utf8EncodeChar (c : Char) : List Nat :=
  let n := c.toNat
  if n < 0x80 then [n]
  else if n < 0x800 then [0xC0 + n / 64, 0x80 + n % 64]
  else if n < 0x10000 then [0xE0 + n / 4096, 0x80 + (n / 64) % 64, 0x80 + n % 64]
  else [0xF0 + n / 262144, 0x80 + (n / 4096) % 64, 0x80 + (n / 64) % 64, 0x80 + n % 64]

/-- Characters `urllib.parse.quote_plus` never encodes:
ASCII letters, digits, `_`, `.`, `-`, `~`. -/
def isAlwaysSafe (c : Char) : Bool :=
  (97 ≤ c.toNat ∧ c.toNat ≤ 122) ∨ (65 ≤ c.toNat ∧ c.toNat ≤ 90) ∨
  (48 ≤ c.toNat ∧ c.toNat ≤ 57) ∨ c = '_' ∨ c = '.' ∨ c = '-' ∨ c = '~'

/-- `urllib.parse.quote_plus` with its defaults: safe characters kept,
space becomes `+`, every other character is UTF-8 encoded and each byte
rendered `%XX` with uppercase hex. -/
def quote_plus (s : String) : String :=
  String.mk (s.toList.foldr
    (fun c acc =>
      (if isAlwaysSafe c then [c]
       else if c = ' ' then ['+']
       else ((utf8EncodeChar c).map
         (fun b => ['%', hexDigitUpper (b / 16), hexDigitUpper (b % 16)])).flatten) ++ acc)
    [])

/-- `urllib.parse.urlencode` on an insertion-ordered dict of string pairs. -/
def urlencode (params : List (String × String)) : String :=
  String.intercalate "&" (params.map (fun p => quote_plus p.1 ++ "=" ++ quote_plus p.2))

/-! ## `get_payurl` (lines 12-20) -/

/-- Embedding of `get_payurl`: split the address on `'@'`; any split
arity other than 2 raises `ValueError` (modelled as `.error`), otherwise
the well-known discovery URL is composed by plain concatenation. -/
def get_payurl (lnaddress : String) : Except String String :=
  let parts := (splitChar '@' lnaddress.toList).map String.mk
  if parts.length ≠ 2 then
    .error ("Errorm possibly malformed LN Address: " ++ lnaddress)
  else
    .ok ("https://" ++ parts.getD 1 "" ++ "/.well-known/lnurlp/" ++ parts.getD 0 "")

/-! ## `get_comment_length` (lines 26-38) -/

/-- Embedding of `get_comment_length`:
`int(datablock.get("commentAllowed", 0))`.  The datablock is the
JSON descriptor object as an insertion-ordered association list; a raised
`ValueError`/`TypeError` from `int()` is modelled as `none`. -/
def get_comment_length (datablock : List (String × JVal)) : Option Int :=
  pyIntOfJVal ((datablock.lookup "commentAllowed").getD (.num 0))

/-! ## `get_bolt11` (lines 40-107), the invoice-request core

The network fetches (`get_url`) and JSON parsing of the descriptor are
I/O collaborators; the embedded core covers lines 55-88: the amount
range check, query-parameter assembly and callback-URL construction.
`get_bolt11_query` takes the amount already converted to millisatoshi
(line 56, `amount_msat = int(amount * 1000)`, is the thin wrapper
`get_bolt11_request`).  An `.ok url` result means the callback request
is issued at exactly `url`; `.error msg` means the function returned
early without issuing it. -/

/-- Lines 57-66: the early-return range check on a given amount. -/
def rangeCheck (min_amount max_amount : Nat) : Option Nat → Option String
  | some amount_msat =>
    if amount_msat < min_amount then
      some ("Amount too small, must be in range " ++ toString (min_amount / 1000) ++
        " and " ++ toString (max_amount / 1000) ++ " sat")
    else if amount_msat > max_amount then
      some ("Amount too big, must be in range " ++ toString (min_amount / 1000) ++
        " and " ++ toString (max_amount / 1000) ++ " sat")
    else none
  | none => none

/-- Lines 72-84: `query_params` assembly.  Python dicts preserve
insertion order, so `amount` precedes `comment`.  The comment is added
only when `comment_allowed > 0 and comment` (non-`None`, non-empty);
a longer comment is first truncated to `comment_allowed` characters. -/
def buildQueryParams (comment_allowed : Nat) (amount_msat : Option Nat)
    (comment : Option String) : List (String × String) :=
  let q : List (String × String) :=
    match amount_msat with
    | some a => [("amount", toString a)]
    | none => []
  match comment with
  | some c =>
    if comment_allowed > 0 ∧ c ≠ "" then
      q ++ [("comment",
        if c.length > comment_allowed then String.mk (c.toList.take comment_allowed) else c)]
    else q
  | none => q

/-- Lines 55-88 of `get_bolt11` with the amount in millisatoshi. -/
def get_bolt11_query (lnurlpay : String) (min_amount max_amount comment_allowed : Nat)
    (amount_msat : Option Nat) (comment : Option String) : Except String String :=
  match rangeCheck min_amount max_amount amount_msat with
  | some msg => .error msg
  | none =>
    .ok (lnurlpay ++ "?" ++ urlencode (buildQueryParams comment_allowed amount_msat comment))

/-- Line 56: the caller-facing amount is in satoshi and is scaled by 1000. -/
def get_bolt11_request (lnurlpay : String) (min_amount max_amount comment_allowed : Nat)
    (amount : Option Nat) (comment : Option String) : Except String String :=
  get_bolt11_query lnurlpay min_amount max_amount comment_allowed
    (amount.map (· * 1000)) comment

/-! ## BOLT11 decoder helpers (lines 123-141) -/

/-- Embedding of `from_words`: big-endian base-32 accumulation. -/
def from_words (words : List Nat) : Nat :=
  words.foldl (fun value w => (value <<< 5) ||| w) 0

/-- Loop body state of `words_to_bytes`.  With 5-bit input words the bit
buffer holds fewer than 8 bits between iterations, so the inner `while`
of the source emits at most one byte per word. -/
def words_to_bytes_go : List Nat → Nat → Nat → List Nat
  | [], _, _ => []
  | w :: ws, bits, bit_buf =>
    let bit_buf' := (bit_buf <<< 5) ||| w
    let bits' := bits + 5
    if bits' ≥ 8 then
      ((bit_buf' >>> (bits' - 8)) &&& 0xFF) :: words_to_bytes_go ws (bits' - 8) bit_buf'
    else
      words_to_bytes_go ws bits' bit_buf'

/-- Embedding of `words_to_bytes`: repack 5-bit words into 8-bit bytes,
dropping any trailing bits that do not fill a byte. -/
def words_to_bytes (words : List Nat) : List Nat :=
  words_to_bytes_go words 0 0

/-- Python `bytes.decode('utf-8', errors='ignore')`: standard UTF-8
decoding where each maximal invalid subpart is dropped and decoding
resumes at the offending byte; an incomplete tail is dropped. -/
def utf8DecodeIgnore : List Nat → String
  | [] => ""
  | b :: rest =>
    if b < 0x80 then
      String.mk [Char.ofNat b] ++ utf8DecodeIgnore rest
    else if 0xC2 ≤ b ∧ b ≤ 0xDF then
      match rest with
      | [] => ""
      | b1 :: rest1 =>
        if 0x80 ≤ b1 ∧ b1 ≤ 0xBF then
          String.mk [Char.ofNat ((b - 0xC0) * 64 + (b1 - 0x80))] ++ utf8DecodeIgnore rest1
        else utf8DecodeIgnore (b1 :: rest1)
    else if 0xE0 ≤ b ∧ b ≤ 0xEF then
      match rest with
      | [] => ""
      | b1 :: rest1 =>
        if (if b = 0xE0 then 0xA0 ≤ b1 ∧ b1 ≤ 0xBF
            else if b = 0xED then 0x80 ≤ b1 ∧ b1 ≤ 0x9F
            else 0x80 ≤ b1 ∧ b1 ≤ 0xBF) then
          match rest1 with
          | [] => ""
          | b2 :: rest2 =>
            if 0x80 ≤ b2 ∧ b2 ≤ 0xBF then
              String.mk [Char.ofNat ((b - 0xE0) * 4096 + (b1 - 0x80) * 64 + (b2 - 0x80))] ++
                utf8DecodeIgnore rest2
            else utf8DecodeIgnore (b2 :: rest2)
        else utf8DecodeIgnore (b1 :: rest1)
    else if 0xF0 ≤ b ∧ b ≤ 0xF4 then
      match rest with
      | [] => ""
      | b1 :: rest1 =>
        if (if b = 0xF0 then 0x90 ≤ b1 ∧ b1 ≤ 0xBF
            else if b = 0xF4 then 0x80 ≤ b1 ∧ b1 ≤ 0x8F
            else 0x80 ≤ b1 ∧ b1 ≤ 0xBF) then
          match rest1 with
          | [] => ""
          | b2 :: rest2 =>
            if 0x80 ≤ b2 ∧ b2 ≤ 0xBF then
              match rest2 with
              | [] => ""
              | b3 :: rest3 =>
                if 0x80 ≤ b3 ∧ b3 ≤ 0xBF then
                  String.mk [Char.ofNat ((b - 0xF0) * 262144 + (b1 - 0x80) * 4096 +
                    (b2 - 0x80) * 64 + (b3 - 0x80))] ++ utf8DecodeIgnore rest3
                else utf8DecodeIgnore (b3 :: rest3)
            else utf8DecodeIgnore (b2 :: rest2)
        else utf8DecodeIgnore (b1 :: rest1)
    else utf8DecodeIgnore rest

/-! ## `parse_tags` (lines 143-183) -/

/-- The values stored in the Python `tags` dict: strings for repacked
hex or decoded text, an integer for `expiry`, a string list for
`routing_hints`, and the raw word list for unknown tag codes. -/
inductive TagValue where
  | str : String → TagValue
  | num : Nat → TagValue
  | strList : List String → TagValue
  | words : List Nat → TagValue
deriving DecidableEq

/-- Python `dict` assignment `d[k] = v`: overwrite in place when the key
exists, otherwise append (dicts preserve insertion order). -/
def dictInsert (m : List (String × TagValue)) (k : String) (v : TagValue) :
    List (String × TagValue) :=
  if (m.lookup k).isSome then
    m.map (fun p => if p.1 = k then (k, v) else p)
  else
    m ++ [(k, v)]

/-- Python `str(v)` on a tags value, as used by the report f-strings. -/
def pyShow : TagValue → String
  | .str s => s
  | .num n => toString n
  | .strList l =>
    "[" ++ String.intercalate ", " (l.map (fun s => "'" ++ s ++ "'")) ++ "]"
  | .words l => "[" ++ String.intercalate ", " (l.map toString) ++ "]"

/-- The `while` loop of `parse_tags` at position `i` with the tags
accumulated so far: a field is 1 tag word, 2 big-endian length words and
that many data words; a declared length running past the end of the
buffer breaks out of the loop, returning the tags parsed so far.
The fuel argument only bounds the number of iterations so that the
function reduces computationally; every iteration consumes at least one
word of fuel, so starting it at `words.length` (as `parse_tags` does)
never exhausts it before the loop condition fails. -/
def parse_tags_from : Nat → List Nat → Nat → List (String × TagValue) →
    List (String × TagValue)
  | 0, _, _, tags => tags
  | fuel + 1, words, i, tags =>
    if i + 3 ≤ words.length then
      let tag_int := words.getD i 0
      let tag_char := Char.ofNat (tag_int + 97)
      let data_length := (words.getD (i + 1) 0) <<< 5 ||| words.getD (i + 2) 0
      let data_start := i + 3
      let data_end := data_start + data_length
      if data_end > words.length then
        tags
      else
        let data_words := (words.take data_end).drop data_start
        let tags' :=
          match tag_char with
          | 'p' => dictInsert tags "payment_hash" (.str (bytesToHex (words_to_bytes data_words)))
          | 'd' => dictInsert tags "description" (.str (utf8DecodeIgnore (words_to_bytes data_words)))
          | 'x' => dictInsert tags "expiry" (.num (from_words data_words))
          | 'n' => dictInsert tags "payee_pubkey" (.str (bytesToHex (words_to_bytes data_words)))
          | 'f' => dictInsert tags "fallback_address" (.str (bytesToHex (words_to_bytes data_words)))
          | 'r' => dictInsert tags "routing_hints" (.strList [bytesToHex (words_to_bytes data_words)])
          | c => dictInsert tags ("unknown_" ++ String.mk [c]) (.words data_words)
        parse_tags_from fuel words data_end tags'
    else tags

/-- Embedding of `parse_tags`: the loop started at position 0 with an
empty dict. -/
def parse_tags (words : List Nat) : List (String × TagValue) :=
  parse_tags_from words.length words 0 []

/-! ## `decode_bolt11` (lines 185-210) -/

/-- The decoded invoice as assembled and reported by `decode_bolt11`. -/
structure Bolt11Record where
  hrp : String
  amount : String
  timestamp : Nat
  tags : List (String × TagValue)
deriving DecidableEq

/-- Lines 190-196 of `decode_bolt11`, on a successful bech32 decode:
amount hint from the HRP, timestamp from the first 7 words, tags from
`data[7:-104]` (Python slice: indices `i` with `7 ≤ i < len - 104`). -/
def decode_bolt11_data (hrp : String) (data : List Nat) : Bolt11Record :=
  { hrp := hrp
    amount :=
      if "lnbc".toList.isPrefixOf hrp.toList then String.mk (hrp.toList.drop 4) else "n/a"
    timestamp := from_words (data.take 7)
    tags := parse_tags ((data.take (data.length - 104)).drop 7) }

/-- Embedding of `decode_bolt11` given the result of
`bech32.bech32_decode` (an external library; it yields `(None, None)`
on failure, which raises `ValueError` here, else the HRP and the 5-bit
data words). -/
def decode_bolt11 : Option String → Option (List Nat) → Except String Bolt11Record
  | some hrp, some data => .ok (decode_bolt11_data hrp data)
  | _, _ => .error "❌ Could not decode invoice or bech32 decode failed"

/-- Line 203 of the report: the displayed description,
`tags.get('description', 'n/a')`. -/
def description_report (r : Bolt11Record) : String :=
  match r.tags.lookup "description" with
  | some v => pyShow v
  | none => "n/a"

/-- Line 205 of the report: the displayed expiry,
`tags.get('expiry', '(fallback) 3600')`. -/
def expiry_report (r : Bolt11Record) : String :=
  match r.tags.lookup "expiry" with
  | some v => pyShow v
  | none => "(fallback) 3600"

/-! ## Supporting lemmas -/

theorem splitChar_ne_nil (sep : Char) (cs : List Char) : splitChar sep cs ≠ [] := by
  cases cs with
  | nil => simp [splitChar]
  | cons c rest =>
    rw [splitChar]
    rcases h : splitChar sep rest with _ | ⟨hd, tl⟩
    · simp
    · dsimp only
      split <;> simp

theorem length_splitChar (sep : Char) (cs : List Char) :
    (splitChar sep cs).length = cs.count sep + 1 := by
  induction cs with
  | nil => rfl
  | cons c rest ih =>
    rw [splitChar]
    rcases h : splitChar sep rest with _ | ⟨hd, tl⟩
    · exact absurd h (splitChar_ne_nil sep rest)
    · rw [h] at ih
      dsimp only
      by_cases hc : c = sep
      · subst hc
        rw [if_pos rfl, List.count_cons_self]
        simp only [List.length_cons] at *
        omega
      · rw [if_neg hc, List.count_cons_of_ne (Ne.symm hc)]
        simp only [List.length_cons] at *
        omega

theorem parse_tags_from_done (fuel : Nat) (words : List Nat) (i : Nat)
    (tags : List (String × TagValue)) (h : words.length < i + 3) :
    parse_tags_from fuel words i tags = tags := by
  cases fuel with
  | zero => rfl
  | succ fuel => rw [parse_tags_from, if_neg (by omega)]

/-- A tag stream holding exactly one `d` field (tag word 3, two length
words declaring exactly the data length) parses to a single-entry
description map. -/
theorem parse_tags_single_d (l1 l2 : Nat) (dwords : List Nat)
    (hlen : (l1 <<< 5) ||| l2 = dwords.length) :
    parse_tags (3 :: l1 :: l2 :: dwords) =
      [("description", TagValue.str (utf8DecodeIgnore (words_to_bytes dwords)))] := by
  have hget0 : (3 :: l1 :: l2 :: dwords).getD 0 0 = 3 := rfl
  have hget1 : (3 :: l1 :: l2 :: dwords).getD 1 0 = l1 := rfl
  have hget2 : (3 :: l1 :: l2 :: dwords).getD 2 0 = l2 := rfl
  have hdata : ((3 :: l1 :: l2 :: dwords).take (0 + 3 + dwords.length)).drop (0 + 3) =
      dwords := by
    have ht : (3 :: l1 :: l2 :: dwords).take (0 + 3 + dwords.length) =
        3 :: l1 :: l2 :: dwords := by
      apply List.take_of_length_le
      simp only [List.length_cons]
      omega
    rw [ht]
    rfl
  rw [parse_tags]
  simp only [List.length_cons]
  rw [parse_tags_from]
  rw [if_pos (show 0 + 3 ≤ (3 :: l1 :: l2 :: dwords).length by
    simp only [List.length_cons]; omega)]
  simp only [hget0, hget1, hget2, hlen]
  rw [if_neg (show ¬(0 + 3 + dwords.length > (3 :: l1 :: l2 :: dwords).length) by
    simp only [List.length_cons]; omega)]
  simp only [hdata]
  rw [parse_tags_from_done _ _ _ _ (by simp only [List.length_cons]; omega)]
  rfl

/-! ## Claims -/

/-- Claim C1: for a descriptor with callback `https://example.com/cb`,
`minSendable` 1000, `maxSendable` 100000 and `commentAllowed` 10,
requesting an invoice with (millisatoshi) amount 5000 and comment `hi`
issues the callback request to exactly
`https://example.com/cb?amount=5000&comment=hi`: the `amount` parameter
comes first, the comment is URL-encoded, and the query is joined onto
the callback with a single `?`. -/
theorem callback_url_scenario :
    get_bolt11_query "https://example.com/cb" 1000 100000 10 (some 5000) (some "hi") =
      .ok "https://example.com/cb?amount=5000&comment=hi" := by decide

/-- Counterexample to claim C2: a bech32 data part of only 10 words
(fewer than the 7 + 104 needed for timestamp and signature) does not
make the decoder fail; it still produces a decoded record, with an
empty tag map. -/
theorem decode_short_data_no_failure :
    decode_bolt11 (some "lnbc1") (some (List.replicate 10 0)) =
      .ok { hrp := "lnbc1", amount := "1", timestamp := 0, tags := [] } := by decide

/-- Claim C2, amended: the decoder never checks the word count.  Once
bech32 decoding yields an HRP and data words, decoding always succeeds;
when the data part has fewer than 111 words, the tag-word slice
`data[7:-104]` is empty, so the record simply carries an empty tag map
(there is no Truncated error in the code). -/
theorem decode_no_truncation_check (hrp : String) (data : List Nat) :
    decode_bolt11 (some hrp) (some data) = .ok (decode_bolt11_data hrp data) ∧
    (data.length < 111 → (decode_bolt11_data hrp data).tags = []) := by
  refine ⟨rfl, fun h => ?_⟩
  have hnil : ((data.take (data.length - 104)).drop 7) = [] := by
    apply List.drop_eq_nil_of_le
    have := List.length_take (data.length - 104) data
    omega
  simp [decode_bolt11_data, hnil, parse_tags, parse_tags_from]

theorem decode_no_truncation_check_witness :
    decode_bolt11 (some "lnbc1") (some (List.replicate 10 0)) =
      .ok (decode_bolt11_data "lnbc1" (List.replicate 10 0)) ∧
    (decode_bolt11_data "lnbc1" (List.replicate 10 0)).tags = [] :=
  ⟨(decode_no_truncation_check "lnbc1" (List.replicate 10 0)).1,
   (decode_no_truncation_check "lnbc1" (List.replicate 10 0)).2 (by decide)⟩

/-- Claim C3: whenever the loop of `parse_tags` reaches a field whose
declared 10-bit length (the two length words, big-endian) would read
past the end of the word buffer, it stops at that field and returns the
tags accumulated so far — a successful partial result, not an error
(the return type has no error case, mirroring the source). -/
theorem parse_tags_overrun_stops (fuel : Nat) (words : List Nat) (i : Nat)
    (tags : List (String × TagValue))
    (h1 : i + 3 ≤ words.length)
    (h2 : words.length < i + 3 + ((words.getD (i + 1) 0) <<< 5 ||| words.getD (i + 2) 0)) :
    parse_tags_from fuel words i tags = tags := by
  cases fuel with
  | zero => rfl
  | succ fuel =>
    rw [parse_tags_from]
    rw [if_pos h1]
    dsimp only
    rw [if_pos h2]

theorem parse_tags_overrun_stops_witness :
    parse_tags_from 6 [3, 0, 0, 1, 0, 5] 3 [("description", TagValue.str "")] =
      [("description", TagValue.str "")] :=
  parse_tags_overrun_stops 6 [3, 0, 0, 1, 0, 5] 3 [("description", TagValue.str "")]
    (by decide) (by decide)

/-- Counterexample to claim C4: the HRP `lnbcrt500n` (regtest) starts
with `lnbc`, so the amount hint is `rt500n`, not `n/a` as the claim
asserts for the `lnbcrt` prefix. -/
theorem amount_hint_lnbcrt_not_na :
    (decode_bolt11_data "lnbcrt500n" []).amount = "rt500n" ∧
    (decode_bolt11_data "lnbcrt500n" []).amount ≠ "n/a" := by decide

/-- Claim C4, amended: the amount hint is the HRP with its first four
characters removed exactly when the HRP starts with `lnbc`, and `n/a`
otherwise.  `lntb` invoices therefore report `n/a`, but `lnbcrt`
(regtest) invoices start with `lnbc` and report the remainder starting
`rt...` instead of `n/a`. -/
theorem amount_hint_drop4_iff_lnbc (hrp : String) (data : List Nat) :
    ("lnbc".toList.isPrefixOf hrp.toList = true →
      (decode_bolt11_data hrp data).amount = String.mk (hrp.toList.drop 4)) ∧
    ("lnbc".toList.isPrefixOf hrp.toList = false →
      (decode_bolt11_data hrp data).amount = "n/a") := by
  constructor <;> intro h
  · simp only [decode_bolt11_data]
    rw [if_pos h]
  · simp only [decode_bolt11_data]
    rw [if_neg]
    rw [h]
    exact Bool.false_ne_true

theorem amount_hint_drop4_iff_lnbc_witness :
    (decode_bolt11_data "lnbc2500u" []).amount = String.mk ("lnbc2500u".toList.drop 4) ∧
    (decode_bolt11_data "lntb20m" []).amount = "n/a" :=
  ⟨(amount_hint_drop4_iff_lnbc "lnbc2500u" []).1 (by decide),
   (amount_hint_drop4_iff_lnbc "lntb20m" []).2 (by decide)⟩

/-- Counterexample to claim C5: a non-numeric `commentAllowed` value
such as the string `abc` does not yield 0 — `int("abc")` raises
(modelled as `none`), so the exception propagates instead. -/
theorem get_comment_length_nonnumeric_raises :
    get_comment_length [("commentAllowed", JVal.str "abc")] = none ∧
    get_comment_length [("commentAllowed", JVal.str "abc")] ≠ some 0 := by decide

/-- Claim C5, amended: the comment-length reader yields 0 when the
`commentAllowed` key is absent and the key's integer value when it is
numeric; but a value `int()` cannot parse raises an exception (caught
only by `get_bolt11`'s blanket handler), it does not yield 0. -/
theorem get_comment_length_cases (db : List (String × JVal)) :
    (db.lookup "commentAllowed" = none → get_comment_length db = some 0) ∧
    (∀ n : Int, db.lookup "commentAllowed" = some (.num n) → get_comment_length db = some n) ∧
    (∀ s : String, db.lookup "commentAllowed" = some (.str s) →
      get_comment_length db = pyIntOfStr s) := by
  refine ⟨fun h => ?_, fun n h => ?_, fun s h => ?_⟩ <;>
    simp [get_comment_length, h, pyIntOfJVal]

/-- Counterexample to claim C6: the input `"@"` has exactly one `@` but
an empty username and an empty domain, yet resolution succeeds (the
source only checks the split arity, not emptiness), instead of failing
with a malformed-address error as the claim requires. -/
theorem get_payurl_empty_parts_ok :
    get_payurl "@" = .ok "https:///.well-known/lnurlp/" := by decide

/-- Claim C6, amended: address resolution succeeds exactly on input
strings containing exactly one `@` — the parts may be empty — yielding
`https://{domain}/.well-known/lnurlp/{username}`; any other input fails
with the malformed-address error. -/
theorem get_payurl_exactly_one_at (s : String) :
    (s.toList.count '@' = 1 →
      get_payurl s = .ok ("https://" ++ ((splitChar '@' s.toList).map String.mk).getD 1 "" ++
        "/.well-known/lnurlp/" ++ ((splitChar '@' s.toList).map String.mk).getD 0 "")) ∧
    (s.toList.count '@' ≠ 1 →
      get_payurl s = .error ("Errorm possibly malformed LN Address: " ++ s)) := by
  have hlen : ((splitChar '@' s.toList).map String.mk).length = s.toList.count '@' + 1 := by
    rw [List.length_map, length_splitChar]
  constructor <;> intro h
  · simp only [get_payurl]
    rw [if_neg (by omega)]
  · simp only [get_payurl]
    rw [if_pos (by omega)]

theorem get_payurl_exactly_one_at_witness :
    get_payurl "alice@example.com" = .ok "https://example.com/.well-known/lnurlp/alice" ∧
    get_payurl "aliceexample.com" =
      .error "Errorm possibly malformed LN Address: aliceexample.com" :=
  ⟨((get_payurl_exactly_one_at "alice@example.com").1 (by decide)).trans (by decide),
   ((get_payurl_exactly_one_at "aliceexample.com").2 (by decide)).trans (by decide)⟩

/-- Claim C7: a given millisatoshi amount strictly below `minSendable`
or strictly above `maxSendable` makes the request return an error —
before the callback URL is even built, so no callback request is issued
— whose message carries the range in whole satoshis via floor division
by 1000; an in-range amount proceeds to the callback request. -/
theorem amount_range_check (cb : String) (minA maxA ca a : Nat) (c : Option String) :
    (a < minA → get_bolt11_query cb minA maxA ca (some a) c =
      .error ("Amount too small, must be in range " ++ toString (minA / 1000) ++
        " and " ++ toString (maxA / 1000) ++ " sat")) ∧
    (a ≥ minA → a > maxA → get_bolt11_query cb minA maxA ca (some a) c =
      .error ("Amount too big, must be in range " ++ toString (minA / 1000) ++
        " and " ++ toString (maxA / 1000) ++ " sat")) ∧
    (a ≥ minA → a ≤ maxA → get_bolt11_query cb minA maxA ca (some a) c =
      .ok (cb ++ "?" ++ urlencode (buildQueryParams ca (some a) c))) := by
  refine ⟨fun h1 => ?_, fun h1 h2 => ?_, fun h1 h2 => ?_⟩ <;>
    simp only [get_bolt11_query, rangeCheck]
  · rw [if_pos h1]
  · rw [if_neg (Nat.not_lt.mpr h1), if_pos h2]
  · rw [if_neg (Nat.not_lt.mpr h1), if_neg (Nat.not_lt.mpr h2)]

theorem amount_range_check_witness :
    get_bolt11_query "https://example.com/cb" 1000 100000 0 (some 500) none =
      .error "Amount too small, must be in range 1 and 100 sat" ∧
    get_bolt11_query "https://example.com/cb" 1000 100000 0 (some 200000) none =
      .error "Amount too big, must be in range 1 and 100 sat" ∧
    get_bolt11_query "https://example.com/cb" 1000 100000 0 (some 5000) none =
      .ok "https://example.com/cb?amount=5000" :=
  ⟨((amount_range_check "https://example.com/cb" 1000 100000 0 500 none).1
      (by decide)).trans (by decide),
   ((amount_range_check "https://example.com/cb" 1000 100000 0 200000 none).2.1
      (by decide) (by decide)).trans (by decide),
   ((amount_range_check "https://example.com/cb" 1000 100000 0 5000 none).2.2
      (by decide) (by decide)).trans (by decide)⟩

/-- Counterexample to claim C8: a comment consisting of a single space
is empty after trimming, yet (with `commentAllowed` 10) it is placed in
the outgoing query, URL-encoded as `+` — the source tests only Python
truthiness (non-emptiness), it never trims; trimming happens in the
out-of-scope callers. -/
theorem comment_whitespace_included :
    get_bolt11_query "https://example.com/cb" 1000 100000 10 none (some " ") =
      .ok "https://example.com/cb?comment=+" := by decide

/-- Claim C8, amended: a comment is placed in the outgoing query
exactly when `comment_allowed > 0` and the comment string is non-empty
(no whitespace trimming is applied at this layer); when included and
longer than `comment_allowed`, it is first truncated to exactly
`comment_allowed` characters (character count, not bytes). -/
theorem comment_attachment (ca : Nat) (amt : Option Nat) (c : String) :
    ((buildQueryParams ca amt (some c)).lookup "comment" =
      if ca > 0 ∧ c ≠ "" then
        some (if c.length > ca then String.mk (c.toList.take ca) else c)
      else none) ∧
    (c.length > ca → (String.mk (c.toList.take ca)).length = ca) := by
  constructor
  · have hba : (("comment" : String) == "amount") = false := by decide
    by_cases hcond : ca > 0 ∧ c ≠ ""
    · rw [if_pos hcond]
      cases amt <;> simp [buildQueryParams, hcond, List.lookup, hba]
    · rw [if_neg hcond]
      cases amt <;> simp [buildQueryParams, hcond, List.lookup, hba]
  · intro h
    rw [String.length_mk, List.length_take]
    have hc : c.length = c.toList.length := rfl
    omega

theorem comment_attachment_witness :
    (buildQueryParams 2 none (some "hello")).lookup "comment" = some "he" ∧
    (String.mk ("hello".toList.take 2)).length = 2 :=
  ⟨((comment_attachment 2 none "hello").1).trans (by decide),
   (comment_attachment 2 none "hello").2 (by decide)⟩

/-- Claim C10 (implicit): with no amount and no attachable comment
(`comment_allowed = 0`, or the comment absent or empty) the assembled
callback URL is the descriptor's callback followed by a lone `?`: the
separator is appended unconditionally even when the encoded query
string is empty. -/
theorem empty_query_trailing_sep (cb : String) (minA maxA ca : Nat) (c : Option String)
    (h : ca = 0 ∨ c = none ∨ c = some "") :
    get_bolt11_query cb minA maxA ca none c = .ok (cb ++ "?") := by
  have hq : buildQueryParams ca none c = [] := by
    rcases h with h | h | h
    · subst h
      cases c with
      | none => rfl
      | some c' => simp [buildQueryParams]
    · subst h; rfl
    · subst h; simp [buildQueryParams]
  simp only [get_bolt11_query, rangeCheck, hq]
  rw [show urlencode [] = "" from rfl, String.append_empty]

theorem empty_query_trailing_sep_witness :
    get_bolt11_query "https://example.com/cb" 1000 100000 0 none (some "hey") =
      .ok "https://example.com/cb?" :=
  (empty_query_trailing_sep "https://example.com/cb" 1000 100000 0 (some "hey")
    (Or.inl rfl)).trans (by decide)

/-- Claim C9: any well-formed invoice — 7 timestamp words, a tag stream
holding only a `d` field whose repacked bytes are the UTF-8 encoding of
`coffee`, and 104 signature words — decodes to a record whose fields
hold `description = "coffee"` and, the `x` tag being absent, no stored
expiry, so the record reports the default of 3600 seconds (rendered as
the fallback `(fallback) 3600`). -/
theorem description_coffee_default_expiry (hrp : String) (ts sig dwords : List Nat)
    (l1 l2 : Nat) (hts : ts.length = 7) (hsig : sig.length = 104)
    (hlen : (l1 <<< 5) ||| l2 = dwords.length)
    (hbytes : words_to_bytes dwords = [99, 111, 102, 102, 101, 101]) :
    (decode_bolt11_data hrp (ts ++ (3 :: l1 :: l2 :: dwords) ++ sig)).tags =
      [("description", TagValue.str "coffee")] ∧
    (decode_bolt11_data hrp (ts ++ (3 :: l1 :: l2 :: dwords) ++ sig)).tags.lookup "expiry" =
      none ∧
    expiry_report (decode_bolt11_data hrp (ts ++ (3 :: l1 :: l2 :: dwords) ++ sig)) =
      "(fallback) 3600" := by
  have hcoffee : utf8DecodeIgnore [99, 111, 102, 102, 101, 101] = "coffee" := by decide
  have htags : (decode_bolt11_data hrp (ts ++ (3 :: l1 :: l2 :: dwords) ++ sig)).tags =
      [("description", TagValue.str "coffee")] := by
    simp only [decode_bolt11_data]
    have hdl : (ts ++ (3 :: l1 :: l2 :: dwords) ++ sig).length - 104 =
        (ts ++ (3 :: l1 :: l2 :: dwords)).length := by
      simp only [List.length_append, hsig]
      omega
    rw [hdl, List.take_left, List.drop_left' hts, parse_tags_single_d l1 l2 dwords hlen,
      hbytes, hcoffee]
  refine ⟨htags, ?_, ?_⟩
  · rw [htags]
    rfl
  · rw [expiry_report, htags]
    rfl

def coffeeWords : List Nat := [12, 13, 23, 22, 12, 25, 19, 5, 12, 20]

theorem description_coffee_default_expiry_witness :
    (decode_bolt11_data "lnbc1"
        (List.replicate 7 0 ++ (3 :: 0 :: 10 :: coffeeWords) ++ List.replicate 104 0)).tags =
      [("description", TagValue.str "coffee")] ∧
    (decode_bolt11_data "lnbc1"
        (List.replicate 7 0 ++ (3 :: 0 :: 10 :: coffeeWords) ++
          List.replicate 104 0)).tags.lookup "expiry" = none ∧
    expiry_report (decode_bolt11_data "lnbc1"
        (List.replicate 7 0 ++ (3 :: 0 :: 10 :: coffeeWords) ++ List.replicate 104 0)) =
      "(fallback) 3600" :=
  description_coffee_default_expiry "lnbc1" (List.replicate 7 0) (List.replicate 104 0)
    coffeeWords 0 10 (by decide) (by decide) (by decide) (by decide)

theorem get_comment_length_cases_witness :
    get_comment_length [] = some 0 ∧
    get_comment_length [("commentAllowed", JVal.num 25)] = some 25 ∧
    get_comment_length [("commentAllowed", JVal.str "abc")] = pyIntOfStr "abc" :=
  ⟨(get_comment_length_cases []).1 (by decide),
   (get_comment_length_cases [("commentAllowed", JVal.num 25)]).2.1 25 (by decide),
   (get_comment_length_cases [("commentAllowed", JVal.str "abc")]).2.2 "abc" (by decide)⟩

end LnAddr
